import Mathlib

/-!
Verification of the Wordle repository's core engine and server logic.

The definitions below are a shallow embedding of the Python sources:
* `wordle_game.py` — the solo game engine (`WordleGame`).
* `Server/wordle_server.py` — the multiplayer server (`WordleServer`).

Strings are modelled as `List Char`, Python dicts as association lists
(preserving insertion order), and the MongoDB side effects
(`update_user_stats`) as an emitted list of `(username, won)` records.
-/

namespace Wordle

/-- `LetterStatus` enum from `wordle_game.py` / `wordle_server.py`. -/
inductive LetterStatus where
  | HIT
  | PRESENT
  | MISS
  | UNUSED
deriving DecidableEq, Repr

open LetterStatus

/-- Python `str.strip()` on a list of characters (whitespace on both ends). -/
def pyStrip (s : List Char) : List Char :=
  ((s.dropWhile Char.isWhitespace).reverse.dropWhile Char.isWhitespace).reverse

/-- Python `str.upper()` on a list of characters. -/
def pyUpper (s : List Char) : List Char :=
  s.map Char.toUpper

/-- Python guess normalization `guess.strip().upper()`. -/
def pyNormalize (s : List Char) : List Char :=
  pyUpper (pyStrip s)

/-!
## The two-pass evaluator

`_evaluate_guess_against_target` (identical in `wordle_game.py:286-339` and
`wordle_server.py:620-655`).  The Python code keeps a `result` list of
`(letter, status-or-None)` pairs and a `target_chars` list whose consumed
entries are overwritten with `None`; we model both with `Option`.
-/

/-- First pass: mark exact position matches as `HIT`, leaving a `none`
placeholder otherwise; simultaneously build the remaining target pool
(`target_chars` with consumed entries set to `None`). -/
def pass1 : List Char → List Char → List (Char × Option LetterStatus) × List (Option Char)
  | g :: gs, t :: ts =>
    let rest := pass1 gs ts
    if g = t then ((g, some HIT) :: rest.1, none :: rest.2)
    else ((g, none) :: rest.1, some t :: rest.2)
  | _, _ => ([], [])

/-- `target_chars[target_chars.index(letter)] = None`: blank the first
occurrence of `some c` in the pool. -/
def removeFirst : List (Option Char) → Char → List (Option Char)
  | [], _ => []
  | x :: xs, c => if x = some c then none :: xs else x :: removeFirst xs c

/-- Second pass: resolve each placeholder to `PRESENT` (consuming one pool
occurrence) or `MISS`; entries already marked are kept unchanged. -/
def pass2 : List (Char × Option LetterStatus) → List (Option Char) →
    List (Char × Option LetterStatus)
  | [], _ => []
  | (c, none) :: rest, pool =>
    if some c ∈ pool then (c, some PRESENT) :: pass2 rest (removeFirst pool c)
    else (c, some MISS) :: pass2 rest pool
  | (c, some s) :: rest, pool => (c, some s) :: pass2 rest pool

/-- The final list comprehension
`[(letter, status) for letter, status in result if status is not None]`. -/
def resolvePlaceholders (l : List (Char × Option LetterStatus)) :
    List (Char × LetterStatus) :=
  l.filterMap (fun p => p.2.map (fun s => (p.1, s)))

/-- `_evaluate_guess_against_target(guess, target)`. -/
def evaluate (guess target : List Char) : List (Char × LetterStatus) :=
  let s := pass1 guess target
  resolvePlaceholders (pass2 s.1 s.2)

/-!
## Counting lemmas for the evaluator guarantees
-/

/-- Number of `HIT` verdicts among resolved entries. -/
def countHitOpt (l : List (Char × Option LetterStatus)) : Nat :=
  l.countP (fun q => q.2 == some HIT)

/-- Number of `HIT`-or-`PRESENT` verdicts on letter `L` (resolved entries). -/
def countHPOpt (L : Char) (l : List (Char × Option LetterStatus)) : Nat :=
  l.countP (fun q => q.1 == L && (q.2 == some HIT || q.2 == some PRESENT))

/-- Number of `HIT`-or-`PRESENT` verdicts on letter `L` in a final evaluation. -/
def countHP (L : Char) (l : List (Char × LetterStatus)) : Nat :=
  l.countP (fun q => q.1 == L && (q.2 == HIT || q.2 == PRESENT))

/-!
## Cumulative letter status (`_update_letter_status`)
-/

/-- Promotion order `UNUSED < MISS < PRESENT < HIT` (priority order in
`_update_letter_status`). -/
def statusRank : LetterStatus → Nat
  | UNUSED => 0
  | MISS => 1
  | PRESENT => 2
  | HIT => 3

/-- Maximum of two verdicts in the promotion order. -/
def statusMax (a b : LetterStatus) : LetterStatus :=
  if statusRank a ≤ statusRank b then b else a

/-- One iteration of the loop body of `_update_letter_status`
(`wordle_game.py:341-363`, `wordle_server.py:657-670`): the stored verdict of
the evaluated letter is promoted according to the if/elif chain. -/
def statusStep (m : Char → LetterStatus) (q : Char × LetterStatus) : Char → LetterStatus :=
  fun x =>
    if x = q.1 then
      let current_status := m q.1
      if q.2 = HIT then HIT
      else if q.2 = PRESENT ∧ current_status ≠ HIT then PRESENT
      else if q.2 = MISS ∧ current_status = UNUSED then MISS
      else current_status
    else m x

/-- `_update_letter_status(letter_status, evaluations)`: fold the per-pair
update over the evaluation list. -/
def updateLetterStatus (m : Char → LetterStatus) (evals : List (Char × LetterStatus)) :
    Char → LetterStatus :=
  evals.foldl statusStep m

/-!
## The solo game engine (`wordle_game.py`)

Randomness (`random.choice`) is made explicit: the selected target word is a
parameter of `initialize_new_game`.
-/

/-- `GuessResult` dataclass (`wordle_game.py:40-58`). -/
structure GuessResult where
  word : List Char
  evaluations : List (Char × LetterStatus)
  round_number : Nat
  is_correct : Bool

/-- Mutable state of a `WordleGame` instance. -/
structure SoloGame where
  max_rounds : Nat
  word_list : List (List Char)
  target_word : List Char
  guess_history : List GuessResult
  current_round : Nat
  game_over : Bool
  is_won : Bool
  letter_status : Char → LetterStatus

/-- `_initialize_new_game` (`wordle_game.py:163-183`) with the randomly
chosen target word made explicit. -/
def initialize_new_game (max_rounds : Nat) (word_list : List (List Char))
    (target : List Char) : SoloGame :=
  { max_rounds := max_rounds, word_list := word_list, target_word := target,
    guess_history := [], current_round := 0, game_over := false,
    is_won := false, letter_status := fun _ => UNUSED }

/-- `is_valid_guess` (`wordle_game.py:185-219`). -/
def is_valid_guess (gm : SoloGame) (guess : List Char) : Bool :=
  if guess = [] then false
  else if (pyNormalize guess).length ≠ 5 then false
  else if ¬ (pyNormalize guess).all Char.isAlpha then false
  else if pyNormalize guess ∉ gm.word_list then false
  else true

/-- `make_guess` (`wordle_game.py:221-284`); raised `ValueError`s are
modelled as `Except.error`. -/
def make_guess (gm : SoloGame) (guess : List Char) :
    Except String (SoloGame × GuessResult) :=
  if gm.game_over then .error "Cannot make guess: game is already over"
  else if ¬ is_valid_guess gm guess then
    .error "Invalid guess: must be a 5-letter word from the allowed word list"
  else
    let normalized_guess := pyNormalize guess
    let evaluations := evaluate normalized_guess gm.target_word
    let round1 := gm.current_round + 1
    let status1 := updateLetterStatus gm.letter_status evaluations
    let is_correct := normalized_guess == gm.target_word
    let gm1 : SoloGame :=
      if is_correct then
        { gm with
            current_round := round1,
            letter_status := status1,
            is_won := true,
            game_over := true }
      else if round1 ≥ gm.max_rounds then
        { gm with
            current_round := round1,
            letter_status := status1,
            game_over := true }
      else
        { gm with
            current_round := round1,
            letter_status := status1 }
    let result : GuessResult :=
      { word := normalized_guess, evaluations := evaluations,
        round_number := round1, is_correct := is_correct }
    .ok ({ gm1 with guess_history := gm.guess_history ++ [result] }, result)

/-- Solo-game states reachable from a validated fresh game through
`make_guess` calls (`_validate_max_rounds` enforces `0 < max_rounds ≤ 20`). -/
inductive SoloReachable : SoloGame → Prop where
  | init (max_rounds : Nat) (word_list : List (List Char)) (target : List Char)
      (h1 : 0 < max_rounds) (h2 : max_rounds ≤ 20) :
      SoloReachable (initialize_new_game max_rounds word_list target)
  | step {gm gm' : SoloGame} {guess : List Char} {r : GuessResult}
      (h : SoloReachable gm) (hg : make_guess gm guess = .ok (gm', r)) :
      SoloReachable gm'

/-- `DEFAULT_MAX_ROUNDS` from `game_settings.py`. -/
def DEFAULT_MAX_ROUNDS : Nat := 3

/-- `WORD_LIST` from `game_settings.py`. -/
def WORD_LIST : List (List Char) :=
  ["ABOUT".toList, "AFTER".toList, "AGAIN".toList, "BRAIN".toList,
   "CHAIR".toList, "DANCE".toList, "EARLY".toList, "FIELD".toList,
   "HEART".toList, "LIGHT".toList]

/-- Per-player progress record inside a multiplayer game
(`start_multiplayer_game`, `wordle_server.py:350-375`). -/
structure PlayerData where
  selected_word : List Char
  current_round : Nat
  max_rounds : Nat
  game_over : Bool
  won : Bool
  guesses : List (List Char)
  guess_results : List (List (Char × LetterStatus))
  letter_status : Char → LetterStatus

/-- A multiplayer game entry of `WordleServer.games` (an insertion-ordered
dict is modelled as an association list). -/
structure MPGame where
  room_id : Option Nat
  players : List (String × PlayerData)
  game_started : Bool
  winner : Option String
  target_word : List Char

/-- A room entry of `WordleServer.rooms`. -/
structure Room where
  players : List String
  ready : List (String × Bool)
  game_id : Option String

/-- The multiplayer-relevant mutable state of a `WordleServer`. -/
structure ServerState where
  games : List (String × MPGame)
  rooms : List (Nat × Room)

/-- `all(p["game_over"] for p in game["players"].values())`. -/
def gameAllOver (g : MPGame) : Bool :=
  g.players.all (fun p => p.2.game_over)

/-- Fresh per-player state created by `start_multiplayer_game`. -/
def initPlayerData (w : List Char) : PlayerData :=
  { selected_word := w, current_round := 0, max_rounds := DEFAULT_MAX_ROUNDS,
    game_over := false, won := false, guesses := [], guess_results := [],
    letter_status := fun _ => UNUSED }

/-- Total `HIT` count of one player across all their guess results
(the counting loop of `_determine_winner_by_hits`). -/
def hitCount (pd : PlayerData) : Nat :=
  (pd.guess_results.map (fun gr => gr.countP (fun q => q.2 == HIT))).sum

/-- `_determine_winner_by_hits` (`wordle_server.py:492-537`).  Returns the
updated game and the emitted `update_user_stats` records.  (`max` over the
hit counts is folded from 0; the method is only invoked on games that have
players, where this agrees with Python's `max`.) -/
def determine_winner_by_hits (g : MPGame) : MPGame × List (String × Bool) :=
  let player_hit_counts := g.players.map (fun p => (p.1, hitCount p.2))
  let max_hits := (player_hit_counts.map Prod.snd).foldl Nat.max 0
  let winners := (player_hit_counts.filter (fun p => p.2 == max_hits)).map Prod.fst
  match winners with
  | [winner] =>
    ({ g with
        winner := some winner,
        players := g.players.map (fun p =>
          if p.1 = winner then (p.1, { p.2 with won := true }) else p) },
     (winner, true) ::
       (g.players.filter (fun p => !(p.1 == winner))).map (fun p => (p.1, false)))
  | _ =>
    ({ g with
        winner := some "DRAW",
        players := g.players.map (fun p => (p.1, { p.2 with won := false })) },
     g.players.map (fun p => (p.1, false)))

/-- `make_guess_multiplayer` (`wordle_server.py:398-490`).  The `(None, msg)`
failure returns are `Except.error msg`; success returns the updated game and
the emitted `update_user_stats` records. -/
def make_guess_multiplayer (word_list : List (List Char)) (g : MPGame)
    (username : String) (guess : List Char) :
    Except String (MPGame × List (String × Bool)) :=
  match g.players.find? (fun p => p.1 == username) with
  | none => .error "Player not in game"
  | some pd0 =>
    let player_data := pd0.2
    if player_data.selected_word = [] then .error "Word not selected"
    else if player_data.game_over then .error "You have already finished the game"
    else if player_data.current_round ≥ player_data.max_rounds then
      .error "You have used all your attempts"
    else
      let normalized_guess := pyNormalize guess
      if normalized_guess.length ≠ 5 ∨ ¬ normalized_guess.all Char.isAlpha then
        .error "Guess must be exactly 5 letters"
      else if normalized_guess ∉ word_list then .error "Word not in word list"
      else
        let target_word := player_data.selected_word
        let evaluations := evaluate normalized_guess target_word
        let pd1 : PlayerData :=
          { player_data with
            current_round := player_data.current_round + 1,
            guesses := player_data.guesses ++ [normalized_guess],
            guess_results := player_data.guess_results ++ [evaluations],
            letter_status := updateLetterStatus player_data.letter_status evaluations }
        if normalized_guess == target_word then
          let pd2 := { pd1 with won := true, game_over := true }
          let g1 : MPGame :=
            { g with
                winner := some username,
                players := g.players.map (fun p =>
                  if p.1 = username then (p.1, pd2)
                  else (p.1, { p.2 with game_over := true, won := false })) }
          .ok (g1, (username, true) ::
            (g.players.filter (fun p => !(p.1 == username))).map (fun p => (p.1, false)))
        else if pd1.current_round ≥ pd1.max_rounds then
          let pd2 := { pd1 with game_over := true }
          let g1 : MPGame :=
            { g with
                players := g.players.map (fun p =>
                  if p.1 = username then (p.1, pd2) else p) }
          if gameAllOver g1 then
            if g1.winner = none then .ok (determine_winner_by_hits g1)
            else .ok (g1, [])
          else .ok (g1, [])
        else
          let g1 : MPGame :=
            { g with
                players := g.players.map (fun p =>
                  if p.1 = username then (p.1, pd1) else p) }
          .ok (g1, [])

/-- `cleanup_completed_game` (`wordle_server.py:539-557`): reset the game's
room and delete the game.  (Python skips the room reset when `room_id` is
falsy, i.e. absent or `0`.) -/
def cleanup_completed_game (st : ServerState) (game_id : String) : ServerState :=
  match st.games.find? (fun p => p.1 == game_id) with
  | none => st
  | some gp =>
    let st1 : ServerState :=
      match gp.2.room_id with
      | some rid =>
        if rid = 0 then st
        else
          { st with
              rooms := st.rooms.map (fun p =>
                if p.1 = rid then
                  (p.1, { players := [], ready := [], game_id := none })
                else p) }
      | none => st
    { st1 with games := st1.games.eraseP (fun p => p.1 == game_id) }

/-- The `GameState` dataclass (`wordle_server.py:75-87`). -/
structure GameState where
  game_id : String
  current_round : Nat
  max_rounds : Nat
  game_over : Bool
  won : Bool
  guesses : List (List Char)
  guess_results : List (List (Char × LetterStatus))
  letter_status : Char → LetterStatus
  answer : Option (List Char)
  entire_game_over : Bool

/-- `get_multiplayer_game_state` (`wordle_server.py:559-591`). -/
def get_multiplayer_game_state (st : ServerState) (game_id : String)
    (username : String) : Option GameState :=
  match st.games.find? (fun p => p.1 == game_id) with
  | none => none
  | some gp =>
    let game := gp.2
    match game.players.find? (fun p => p.1 == username) with
    | none => none
    | some pp =>
      let player_data := pp.2
      some
        { game_id := game_id,
          current_round := player_data.current_round,
          max_rounds := player_data.max_rounds,
          game_over := player_data.game_over,
          won := player_data.won,
          guesses := player_data.guesses,
          guess_results := player_data.guess_results,
          letter_status := player_data.letter_status,
          answer :=
            if game.winner.isSome || gameAllOver game then
              some player_data.selected_word
            else none,
          entire_game_over := game.winner.isSome || gameAllOver game }

/-- One `room_data` entry of the `get_rooms_status` response
(`target_word` is the key added only when the room has an active game). -/
structure RoomStatus where
  players : List String
  ready : List (String × Bool)
  game_id : Option String
  target_word : Option (List Char)
deriving DecidableEq

/-- The lazy-cleanup step shared by `join_room` and `get_rooms_status`:
if the given room references a game whose players are all done, that game is
cleaned up. -/
def lazy_cleanup (st : ServerState) (room : Room) : ServerState :=
  match room.game_id with
  | some gid =>
    match st.games.find? (fun p => p.1 == gid) with
    | some gp => if gameAllOver gp.2 then cleanup_completed_game st gid else st
    | none => st
  | none => st

/-- The room as re-read after `lazy_cleanup` (Python mutates the room dict in
place, so the local `room` reference reflects the cleanup). -/
def room_after_cleanup (st : ServerState) (rid : Nat) (room : Room) : Room :=
  match (lazy_cleanup st room).rooms.find? (fun p => p.1 == rid) with
  | some rp1 => rp1.2
  | none => room

/-- The loop body of `get_rooms_status` (`wordle_server.py:593-618`) for one
room id: proactive cleanup of an ended game, then the room snapshot
(including the `target_word` of any still-active game). -/
def rooms_status_visit (st : ServerState) (rid : Nat) :
    ServerState × Option (Nat × RoomStatus) :=
  match st.rooms.find? (fun p => p.1 == rid) with
  | none => (st, none)
  | some rp =>
    let room := rp.2
    let st1 := lazy_cleanup st room
    let room1 := room_after_cleanup st rid room
    let target_word : Option (List Char) :=
      match room1.game_id with
      | some gid =>
        match st1.games.find? (fun p => p.1 == gid) with
        | some gp => some gp.2.target_word
        | none => none
      | none => none
    (st1, some (rid,
      { players := room1.players, ready := room1.ready,
        game_id := room1.game_id, target_word := target_word }))

/-- `get_rooms_status` (`wordle_server.py:593-618`): visit every room in
order, threading the (possibly cleaned-up) state. -/
def get_rooms_status (st : ServerState) :
    ServerState × List (Nat × RoomStatus) :=
  (st.rooms.map Prod.fst).foldl
    (fun acc rid =>
      let v := rooms_status_visit acc.1 rid
      match v.2 with
      | some entry => (v.1, acc.2 ++ [entry])
      | none => (v.1, acc.2))
    (st, [])

/-- The `/api/game/<id>/opponent` handler `get_opponent_info`
(`wordle_server.py:869-907`): opponent name, the game's target word
(returned unconditionally), and the winner. -/
def get_opponent_info (st : ServerState) (game_id : String) (username : String) :
    Option (Option String × List Char × Option String) :=
  match st.games.find? (fun p => p.1 == game_id) with
  | none => none
  | some gp =>
    let game := gp.2
    if (game.players.find? (fun p => p.1 == username)).isSome then
      some ((game.players.find? (fun p => !(p.1 == username))).map Prod.fst,
        game.target_word, game.winner)
    else none

/-- The `game_data` dict returned by `start_multiplayer_game`. -/
structure StartData where
  game_id : String
  room_id : Nat
  players : List String
  target_word : List Char
deriving DecidableEq

/-- `start_multiplayer_game` (`wordle_server.py:337-394`); `none` models the
`{"error": ...}` payload when the room does not hold exactly two players.
The fresh uuid and the randomly chosen shared target word are explicit
parameters. -/
def start_multiplayer_game (st : ServerState) (room_id : Nat)
    (new_game_id : String) (target_word : List Char) :
    ServerState × Option StartData :=
  match st.rooms.find? (fun p => p.1 == room_id) with
  | none => (st, none)
  | some rp =>
    match rp.2.players with
    | [p0, p1] =>
      let game : MPGame :=
        { room_id := some room_id,
          players := [(p0, initPlayerData target_word),
                      (p1, initPlayerData target_word)],
          game_started := true, winner := none, target_word := target_word }
      let st1 : ServerState :=
        { games := st.games ++ [(new_game_id, game)],
          rooms := st.rooms.map (fun p =>
            if p.1 = room_id then (p.1, { p.2 with game_id := some new_game_id })
            else p) }
      (st1, some { game_id := new_game_id, room_id := room_id,
                   players := [p0, p1], target_word := target_word })
    | _ => (st, none)

/-- Result of `join_room`: either the error payload or
`{"success": True, "game_starting": ..., "game_data": ...}`. -/
inductive JoinResult where
  | err (msg : String)
  | ok (game_starting : Bool) (game_data : Option StartData)
deriving DecidableEq

/-- `join_room` (`wordle_server.py:266-310`).  The uuid and random word used
when a game auto-starts are explicit parameters. -/
def join_room (st : ServerState) (room_id : Nat) (username : String)
    (new_game_id : String) (target_word : List Char) :
    ServerState × JoinResult :=
  match st.rooms.find? (fun p => p.1 == room_id) with
  | none => (st, .err "Room does not exist")
  | some rp =>
    let room := rp.2
    let st1 := lazy_cleanup st room
    let room1 := room_after_cleanup st room_id room
    if 2 ≤ (room1.players.filter (fun p => !(p == username))).length then
      (st1, .err "Room is full")
    else
      let st2 : ServerState :=
        { st1 with
            rooms := st1.rooms.map (fun p =>
              (p.1, { players := p.2.players.erase username,
                      ready := p.2.ready.eraseP (fun q => q.1 == username),
                      game_id := p.2.game_id })) }
      let room2 : Room :=
        match st2.rooms.find? (fun p => p.1 == room_id) with
        | some rp2 => rp2.2
        | none => room
      let room3 : Room :=
        { players := room2.players ++ [username],
          ready := room2.ready ++ [(username, true)],
          game_id := room2.game_id }
      let st3 : ServerState :=
        { st2 with
            rooms := st2.rooms.map (fun p =>
              if p.1 = room_id then (p.1, room3) else p) }
      if room3.players.length = 2 then
        let res := start_multiplayer_game st3 room_id new_game_id target_word
        (res.1, .ok true res.2)
      else
        (st3, .ok false none)

/-- A DUAL game in progress (nobody has finished): used to exhibit the C3
leak. -/
def C3_game : MPGame :=
  { room_id := some 1,
    players := [("alice", initPlayerData ("ABOUT".toList)),
                ("bob", initPlayerData ("ABOUT".toList))],
    game_started := true, winner := none, target_word := "ABOUT".toList }

/-- Server state holding `C3_game` in room 1. -/
def C3_state : ServerState :=
  { games := [("g1", C3_game)],
    rooms := [(1, { players := ["alice", "bob"],
                    ready := [("alice", true), ("bob", true)],
                    game_id := some "g1" }),
              (2, { players := [], ready := [], game_id := none }),
              (3, { players := [], ready := [], game_id := none })] }

/-- The state `get_multiplayer_game_state` returns to `alice` in `C3_state`. -/
def C3_out : GameState :=
  { game_id := "g1", current_round := 0, max_rounds := 3, game_over := false,
    won := false, guesses := [], guess_results := [],
    letter_status := fun _ => UNUSED, answer := none,
    entire_game_over := false }

/-!
## Claim C9: when completed sessions are reclaimed
-/

/-- A finished DUAL game (both players done). -/
def C9_game : MPGame :=
  { room_id := some 1,
    players := [("alice", { initPlayerData ("ABOUT".toList) with game_over := true }),
                ("bob", { initPlayerData ("ABOUT".toList) with game_over := true })],
    game_started := true, winner := some "alice", target_word := "ABOUT".toList }

/-- The room record referencing `C9_game`. -/
def C9_room : Room :=
  { players := ["alice", "bob"],
    ready := [("alice", true), ("bob", true)],
    game_id := some "g1" }

/-- Server state holding the completed `C9_game` in room 1. -/
def C9_state : ServerState :=
  { games := [("g1", C9_game)],
    rooms := [(1, C9_room),
              (2, { players := [], ready := [], game_id := none }),
              (3, { players := [], ready := [], game_id := none })] }

/-- Two exhausted players with equal (zero) hit totals, for the C5 witness. -/
def C5_player : PlayerData :=
  { initPlayerData ("ABOUT".toList) with current_round := 3, game_over := true }

/-- The DUAL game between the two exhausted `C5_player`s. -/
def C5_game : MPGame :=
  { room_id := some 1,
    players := [("alice", C5_player), ("bob", C5_player)],
    game_started := true, winner := none, target_word := "ABOUT".toList }

/-!
## Claim C4: a winning guess ends the DUAL match immediately
-/

/-- The submitting player's record after a winning guess in
`make_guess_multiplayer`. -/
def winnerUpdate (pd : PlayerData) (w : List Char) : PlayerData :=
  { pd with
      current_round := pd.current_round + 1,
      guesses := pd.guesses ++ [w],
      guess_results := pd.guess_results ++ [evaluate w pd.selected_word],
      letter_status :=
        updateLetterStatus pd.letter_status (evaluate w pd.selected_word),
      won := true,
      game_over := true }

/-- The opponent's record after being force-completed by the winner's guess. -/
def forceLoss (pd : PlayerData) : PlayerData :=
  { pd with game_over := true, won := false }

/-- A fresh DUAL game for the C4 witness. -/
def C4_game : MPGame :=
  { room_id := some 1,
    players := [("alice", initPlayerData ("ABOUT".toList)),
                ("bob", initPlayerData ("ABOUT".toList))],
    game_started := true, winner := none, target_word := "ABOUT".toList }

/-!
## Claim C6 counterexample: the DUAL force-complete breaks the invariant
-/

/-- A fresh DUAL game used for the C6 counterexample. -/
def C6_mp_game : MPGame :=
  { room_id := some 1,
    players := [("charlie", initPlayerData ("ABOUT".toList)),
                ("dana", initPlayerData ("ABOUT".toList))],
    game_started := true, winner := none, target_word := "ABOUT".toList }

/-- A room occupied by `erin` alone, for the C8 witness. -/
def C8_room : Room :=
  { players := ["erin"], ready := [("erin", true)], game_id := none }

/-- Server state with `C8_room` as room 1. -/
def C8_state : ServerState :=
  { games := [],
    rooms := [(1, C8_room),
              (2, { players := [], ready := [], game_id := none }),
              (3, { players := [], ready := [], game_id := none })] }

/-!
## Structural lemmas about the evaluator
-/

/-- The second pass never changes the letter component of an entry. -/
theorem pass2_map_fst (e : List (Char × Option LetterStatus)) (pool : List (Option Char)) :
    (pass2 e pool).map Prod.fst = e.map Prod.fst := by
  induction e generalizing pool with
  | nil => simp [pass2]
  | cons q rest ih =>
    obtain ⟨c, s⟩ := q
    cases s with
    | none =>
      by_cases h : some c ∈ pool
      · simp [pass2, h, ih]
      · simp [pass2, h, ih]
    | some s => simp [pass2, ih]

/-- After the second pass every placeholder has been resolved. -/
theorem pass2_isSome (e : List (Char × Option LetterStatus)) (pool : List (Option Char)) :
    ∀ q ∈ pass2 e pool, q.2.isSome := by
  induction e generalizing pool with
  | nil => simp [pass2]
  | cons q rest ih =>
    obtain ⟨c, s⟩ := q
    cases s with
    | none =>
      by_cases h : some c ∈ pool
      · simpa [pass2, h] using ih (removeFirst pool c)
      · simpa [pass2, h] using ih pool
    | some s => simpa [pass2] using ih pool

/-- The second pass only produces `HIT` (kept), `PRESENT` or `MISS` verdicts,
provided every already-marked entry was a `HIT`. -/
theorem pass2_status (e : List (Char × Option LetterStatus)) (pool : List (Option Char))
    (he : ∀ q ∈ e, q.2 = some HIT ∨ q.2 = none) :
    ∀ q ∈ pass2 e pool, q.2 = some HIT ∨ q.2 = some PRESENT ∨ q.2 = some MISS := by
  induction e generalizing pool with
  | nil => simp [pass2]
  | cons q rest ih =>
    obtain ⟨c, s⟩ := q
    have hrest : ∀ q ∈ rest, q.2 = some HIT ∨ q.2 = none := by
      intro q hq; exact he q (List.mem_cons_of_mem _ hq)
    cases s with
    | none =>
      by_cases h : some c ∈ pool
      · intro q hq
        rcases (by simpa [pass2, h] using hq :
            q = (c, some PRESENT) ∨ q ∈ pass2 rest (removeFirst pool c)) with h' | h'
        · subst h'; simp
        · exact ih (removeFirst pool c) hrest q h'
      · intro q hq
        rcases (by simpa [pass2, h] using hq :
            q = (c, some MISS) ∨ q ∈ pass2 rest pool) with h' | h'
        · subst h'; simp
        · exact ih pool hrest q h'
    | some s =>
      intro q hq
      rcases (by simpa [pass2] using hq :
          q = (c, some s) ∨ q ∈ pass2 rest pool) with h' | h'
      · subst h'
        rcases he (c, some s) (List.mem_cons_self _ _) with h'' | h'' <;> simp_all
      · exact ih pool hrest q h'

/-- Pass-one entries are either exact matches (`HIT`) or placeholders. -/
theorem pass1_status (g t : List Char) :
    ∀ q ∈ (pass1 g t).1, q.2 = some HIT ∨ q.2 = none := by
  induction g generalizing t with
  | nil => simp [pass1]
  | cons c gs ih =>
    cases t with
    | nil => simp [pass1]
    | cons d ts =>
      by_cases h : c = d
      · intro q hq
        rcases (by simpa [pass1, h] using hq :
            q = (c, some HIT) ∨ q ∈ (pass1 gs ts).1) with h' | h'
        · subst h'; simp
        · exact ih ts q h'
      · intro q hq
        rcases (by simpa [pass1, h] using hq :
            q = (c, (none : Option LetterStatus)) ∨ q ∈ (pass1 gs ts).1) with h' | h'
        · subst h'; simp
        · exact ih ts q h'

/-- When the two words have the same length, the first pass records the guess
letters in order. -/
theorem pass1_map_fst (g t : List Char) (h : t.length = g.length) :
    ((pass1 g t).1).map Prod.fst = g := by
  induction g generalizing t with
  | nil => simp [pass1]
  | cons c gs ih =>
    cases t with
    | nil => simp at h
    | cons d ts =>
      simp only [List.length_cons, Nat.succ.injEq] at h
      by_cases hc : c = d <;> simp [pass1, hc, ih ts h]

/-- `resolvePlaceholders` is the identity (up to unwrapping) on fully
resolved lists: no position is dropped. -/
theorem resolvePlaceholders_map_fst (l : List (Char × Option LetterStatus))
    (h : ∀ q ∈ l, q.2.isSome) :
    (resolvePlaceholders l).map Prod.fst = l.map Prod.fst := by
  induction l with
  | nil => simp [resolvePlaceholders]
  | cons q rest ih =>
    obtain ⟨c, s⟩ := q
    cases s with
    | none => exact absurd (h (c, none) (List.mem_cons_self _ _)) (by simp)
    | some s =>
      have := ih (fun q hq => h q (List.mem_cons_of_mem _ hq))
      simpa [resolvePlaceholders] using this

/-- Every verdict of `resolvePlaceholders l` appears wrapped in `l`. -/
theorem resolvePlaceholders_mem (l : List (Char × Option LetterStatus)) :
    ∀ q ∈ resolvePlaceholders l, (q.1, some q.2) ∈ l := by
  induction l with
  | nil => simp [resolvePlaceholders]
  | cons p rest ih =>
    obtain ⟨c, s⟩ := p
    cases s with
    | none =>
      intro q hq
      exact List.mem_cons_of_mem _ (ih q (by simpa [resolvePlaceholders] using hq))
    | some s =>
      intro q hq
      rcases (by simpa [resolvePlaceholders] using hq :
          q = (c, s) ∨ q ∈ resolvePlaceholders rest) with h' | h'
      · subst h'; simp
      · exact List.mem_cons_of_mem _ (ih q h')

theorem resolvePlaceholders_countHit (l : List (Char × Option LetterStatus)) :
    (resolvePlaceholders l).countP (fun q => q.2 == HIT) = countHitOpt l := by
  induction l with
  | nil => simp [resolvePlaceholders, countHitOpt]
  | cons p rest ih =>
    obtain ⟨c, s⟩ := p
    cases s with
    | none => simpa [resolvePlaceholders, countHitOpt, List.countP_cons] using ih
    | some s =>
      cases s <;>
        simpa [resolvePlaceholders, countHitOpt, List.countP_cons] using ih

theorem resolvePlaceholders_countHP (L : Char) (l : List (Char × Option LetterStatus)) :
    countHP L (resolvePlaceholders l) = countHPOpt L l := by
  induction l with
  | nil => simp [resolvePlaceholders, countHP, countHPOpt]
  | cons p rest ih =>
    obtain ⟨c, s⟩ := p
    cases s with
    | none => simpa [resolvePlaceholders, countHP, countHPOpt, List.countP_cons] using ih
    | some s =>
      by_cases hc : c = L
      · cases s <;>
          simpa [resolvePlaceholders, countHP, countHPOpt, List.countP_cons, hc] using ih
      · cases s <;>
          simpa [resolvePlaceholders, countHP, countHPOpt, List.countP_cons, hc] using ih

/-- The second pass neither creates nor destroys `HIT` verdicts. -/
theorem pass2_countHit (e : List (Char × Option LetterStatus)) (pool : List (Option Char)) :
    countHitOpt (pass2 e pool) = countHitOpt e := by
  induction e generalizing pool with
  | nil => simp [pass2]
  | cons q rest ih =>
    obtain ⟨c, s⟩ := q
    cases s with
    | none =>
      by_cases h : some c ∈ pool
      · simpa [pass2, h, countHitOpt, List.countP_cons] using ih (removeFirst pool c)
      · simpa [pass2, h, countHitOpt, List.countP_cons] using ih pool
    | some s =>
      cases s <;> simpa [pass2, countHitOpt, List.countP_cons] using ih pool

/-- `HIT` entries produced by the first pass are exactly the positions where
guess and target agree. -/
theorem pass1_countHit (g t : List Char) :
    countHitOpt (pass1 g t).1 = (g.zip t).countP (fun q => q.1 == q.2) := by
  induction g generalizing t with
  | nil => simp [pass1, countHitOpt]
  | cons c gs ih =>
    cases t with
    | nil => simp [pass1, countHitOpt]
    | cons d ts =>
      by_cases h : c = d <;>
        simpa [pass1, h, countHitOpt, List.countP_cons] using ih ts

theorem removeFirst_count_self (pool : List (Option Char)) (c : Char)
    (h : some c ∈ pool) :
    (removeFirst pool c).count (some c) + 1 = pool.count (some c) := by
  induction pool with
  | nil => simp at h
  | cons x xs ih =>
    by_cases hx : x = some c
    · subst hx
      simp [removeFirst, List.count_cons]
    · have hmem : some c ∈ xs := by
        rcases List.mem_cons.mp h with h' | h'
        · exact absurd h'.symm hx
        · exact h'
      have := ih hmem
      simp only [removeFirst, if_neg hx, List.count_cons]
      omega

theorem removeFirst_count_ne (pool : List (Option Char)) (c L : Char) (h : L ≠ c) :
    (removeFirst pool c).count (some L) = pool.count (some L) := by
  induction pool with
  | nil => simp [removeFirst]
  | cons x xs ih =>
    by_cases hx : x = some c
    · subst hx
      simp [removeFirst, List.count_cons, h]
    · simp only [removeFirst, if_neg hx, List.count_cons]
      omega

/-- Each `PRESENT` verdict consumes one pool occurrence, so hit-or-present
occurrences of a letter are bounded by marked entries plus the pool. -/
theorem pass2_countHP (L : Char) (e : List (Char × Option LetterStatus))
    (pool : List (Option Char)) :
    countHPOpt L (pass2 e pool) ≤ countHPOpt L e + pool.count (some L) := by
  induction e generalizing pool with
  | nil => simp [pass2, countHPOpt]
  | cons q rest ih =>
    obtain ⟨c, s⟩ := q
    cases s with
    | none =>
      by_cases h : some c ∈ pool
      · by_cases hc : c = L
        · subst hc
          have hcount := removeFirst_count_self pool c h
          have hrec := ih (removeFirst pool c)
          simp only [countHPOpt, List.countP_cons] at hrec ⊢
          simp only [pass2, if_pos h, List.countP_cons]
          simp
          omega
        · have hcount := removeFirst_count_ne pool c L (fun hL => hc hL.symm)
          have hrec := ih (removeFirst pool c)
          simp only [countHPOpt, List.countP_cons] at hrec ⊢
          simp only [pass2, if_pos h, List.countP_cons]
          simp [hc]
          omega
      · have hrec := ih pool
        simp only [countHPOpt, List.countP_cons] at hrec ⊢
        simp only [pass2, if_neg h, List.countP_cons]
        simp
        omega
    | some s =>
      have hrec := ih pool
      simp only [countHPOpt, List.countP_cons] at hrec ⊢
      simp only [pass2, List.countP_cons]
      by_cases hc : c = L
      · cases s <;> simp [hc] <;> omega
      · cases s <;> simp [hc] <;> omega

/-- After pass one, marked `L`-hits plus remaining pool occurrences of `L`
account exactly for the occurrences of `L` in the target. -/
theorem pass1_countHP (L : Char) (g t : List Char) (h : t.length = g.length) :
    countHPOpt L (pass1 g t).1 + ((pass1 g t).2).count (some L) = t.count L := by
  induction g generalizing t with
  | nil =>
    cases t with
    | nil => simp [pass1, countHPOpt]
    | cons d ts => simp at h
  | cons c gs ih =>
    cases t with
    | nil => simp at h
    | cons d ts =>
      simp only [List.length_cons, Nat.succ.injEq] at h
      have hrec := ih ts h
      simp only [countHPOpt] at hrec ⊢
      by_cases hc : c = d
      · subst hc
        simp only [pass1, if_pos rfl, List.countP_cons, List.count_cons]
        by_cases hL : c = L
        · subst hL
          simp
          omega
        · simp [hL, fun hx : L = c => hL hx.symm]
          omega
      · simp only [pass1, if_neg hc, List.countP_cons, List.count_cons]
        by_cases hL : d = L
        · subst hL
          simp
          omega
        · simp [hL, fun hx : L = d => hL hx.symm]
          omega

/-- The if/elif chain computes exactly the promotion-order maximum. -/
theorem statusStep_eq (m : Char → LetterStatus) (c : Char) (s : LetterStatus) (x : Char) :
    statusStep m (c, s) x = if x = c then statusMax (m c) s else m x := by
  by_cases hx : x = c
  · subst hx
    cases hm : m x <;> cases s <;>
      simp [statusStep, statusMax, statusRank, hm]
  · simp [statusStep, hx]

theorem statusRank_le_max_left (a b : LetterStatus) :
    statusRank a ≤ statusRank (statusMax a b) := by
  cases a <;> cases b <;> decide

theorem statusRank_le_max_right (a b : LetterStatus) :
    statusRank b ≤ statusRank (statusMax a b) := by
  cases a <;> cases b <;> decide

theorem statusMax_eq_left (a b : LetterStatus) (h : statusRank b ≤ statusRank a) :
    statusMax a b = a := by
  cases a <;> cases b <;> simp_all [statusMax, statusRank]

/-- A single update never lowers any letter's rank. -/
theorem statusStep_mono (m : Char → LetterStatus) (q : Char × LetterStatus) (x : Char) :
    statusRank (m x) ≤ statusRank (statusStep m q x) := by
  obtain ⟨c, s⟩ := q
  rw [statusStep_eq]
  by_cases hx : x = c
  · subst hx
    simpa using statusRank_le_max_left (m x) s
  · simp [hx]

/-- Applying a whole evaluation never lowers any letter's rank. -/
theorem updateLetterStatus_mono (evals : List (Char × LetterStatus))
    (m : Char → LetterStatus) (x : Char) :
    statusRank (m x) ≤ statusRank (updateLetterStatus m evals x) := by
  induction evals generalizing m with
  | nil => simp [updateLetterStatus]
  | cons q rest ih =>
    calc statusRank (m x) ≤ statusRank (statusStep m q x) := statusStep_mono m q x
      _ ≤ _ := by simpa [updateLetterStatus] using ih (statusStep m q)

/-- After applying an evaluation, each evaluated letter's stored rank is at
least the rank that evaluation assigned it. -/
theorem updateLetterStatus_ge_eval (evals : List (Char × LetterStatus))
    (m : Char → LetterStatus) (c : Char) (s : LetterStatus) (h : (c, s) ∈ evals) :
    statusRank s ≤ statusRank (updateLetterStatus m evals c) := by
  induction evals generalizing m with
  | nil => simp at h
  | cons q rest ih =>
    rcases List.mem_cons.mp h with h' | h'
    · have h1 : statusRank s ≤ statusRank (statusStep m q c) := by
        subst h'
        rw [statusStep_eq]
        simpa using statusRank_le_max_right (m c) s
      calc statusRank s ≤ statusRank (statusStep m q c) := h1
        _ ≤ _ := by
          simpa [updateLetterStatus] using
            updateLetterStatus_mono rest (statusStep m q) c
    · simpa [updateLetterStatus] using ih (statusStep m q) h'

/-- If the map already dominates every pair of the evaluation, applying it is
a no-op. -/
theorem updateLetterStatus_fixed (evals : List (Char × LetterStatus))
    (m : Char → LetterStatus)
    (h : ∀ q ∈ evals, statusRank q.2 ≤ statusRank (m q.1)) (x : Char) :
    updateLetterStatus m evals x = m x := by
  induction evals generalizing m with
  | nil => simp [updateLetterStatus]
  | cons q rest ih =>
    have hstep : statusStep m q = m := by
      funext y
      obtain ⟨c, s⟩ := q
      rw [statusStep_eq]
      by_cases hy : y = c
      · subst hy
        simpa using statusMax_eq_left (m y) s (h (y, s) (List.mem_cons_self _ _))
      · simp [hy]
    have : updateLetterStatus m (q :: rest) x = updateLetterStatus m rest x := by
      simp [updateLetterStatus, hstep]
    rw [this]
    exact ih m (fun q' hq' => h q' (List.mem_cons_of_mem _ hq'))

/-!
## Claim theorems about the evaluator and the letter-status tracker
-/

/-- Claim C1: for 5-letter uppercase alphabetic guess `g` and target `t`, the
two-pass evaluator produces exactly as many `HIT` verdicts as there are
positions where `g` and `t` agree, and for every letter `L` the number of
`HIT`-or-`PRESENT` verdicts on `L` never exceeds the number of occurrences of
`L` in the target. -/
theorem C1_evaluate_hit_count_and_letter_bound (g t : List Char)
    (hg : g.length = 5) (ht : t.length = 5)
    (_hgu : ∀ c ∈ g, c.isUpper = true) (_htu : ∀ c ∈ t, c.isUpper = true) :
    (evaluate g t).countP (fun q => q.2 == HIT) =
      (g.zip t).countP (fun q => q.1 == q.2) ∧
    ∀ L : Char, countHP L (evaluate g t) ≤ t.count L := by
  have hlen : t.length = g.length := by omega
  constructor
  · simp only [evaluate]
    rw [resolvePlaceholders_countHit, pass2_countHit, pass1_countHit]
  · intro L
    simp only [evaluate]
    rw [resolvePlaceholders_countHP]
    calc countHPOpt L (pass2 (pass1 g t).1 (pass1 g t).2)
        ≤ countHPOpt L (pass1 g t).1 + ((pass1 g t).2).count (some L) :=
          pass2_countHP L (pass1 g t).1 (pass1 g t).2
      _ = t.count L := pass1_countHP L g t hlen

/-- Witness for C1 at guess `ERASE`, target `SPEED`, letter `E`. -/
theorem C1_witness :
    (evaluate "ERASE".toList "SPEED".toList).countP (fun q => q.2 == HIT) =
      ("ERASE".toList.zip "SPEED".toList).countP (fun q => q.1 == q.2) ∧
    countHP 'E' (evaluate "ERASE".toList "SPEED".toList) ≤ "SPEED".toList.count 'E' := by
  have h := C1_evaluate_hit_count_and_letter_bound "ERASE".toList "SPEED".toList
    (by decide) (by decide) (by decide) (by decide)
  exact ⟨h.1, h.2 'E'⟩

/-- Claim C2 counterexample: evaluating guess `ERASE` against target `SPEED`
does not produce the claimed list ending in `(E, HIT)` — the final `E` of the
guess sits opposite the `D` of the target, so it cannot be a hit. -/
theorem C2_counterexample_erase_speed :
    evaluate "ERASE".toList "SPEED".toList ≠
      [('E', PRESENT), ('R', MISS), ('A', MISS), ('S', PRESENT), ('E', HIT)] := by
  decide

/-- Claim C2 amended: evaluating guess `ERASE` against target `SPEED` returns
`[(E,PRESENT),(R,MISS),(A,MISS),(S,PRESENT),(E,PRESENT)]`: both guess `E`s
consume the two target `E`s as `PRESENT`, and no position is an exact match. -/
theorem C2_erase_speed_evaluation :
    evaluate "ERASE".toList "SPEED".toList =
      [('E', PRESENT), ('R', MISS), ('A', MISS), ('S', PRESENT), ('E', PRESENT)] := by
  decide

/-- Claim C10: for 5-letter guess and target the evaluator returns exactly 5
pairs in position order, the `i`-th letter being the `i`-th guess letter, and
every verdict is `HIT`, `PRESENT` or `MISS` — never `UNUSED`, and the final
placeholder-filtering step drops no position. -/
theorem C10_evaluate_shape (g t : List Char) (hg : g.length = 5) (ht : t.length = 5) :
    (evaluate g t).length = 5 ∧ (evaluate g t).map Prod.fst = g ∧
    ∀ q ∈ evaluate g t, q.2 = HIT ∨ q.2 = PRESENT ∨ q.2 = MISS := by
  have hlen : t.length = g.length := by omega
  have hfst : (evaluate g t).map Prod.fst = g := by
    simp only [evaluate]
    rw [resolvePlaceholders_map_fst _ (pass2_isSome _ _), pass2_map_fst,
      pass1_map_fst _ _ hlen]
  refine ⟨?_, hfst, ?_⟩
  · have := congrArg List.length hfst
    simpa [hg] using this
  · intro q hq
    have hmem := resolvePlaceholders_mem _ q hq
    have := pass2_status (pass1 g t).1 (pass1 g t).2 (pass1_status g t)
      (q.1, some q.2) hmem
    simpa using this

/-- Witness for C10 at guess `ERASE`, target `SPEED`. -/
theorem C10_witness :
    (evaluate "ERASE".toList "SPEED".toList).length = 5 ∧
    (evaluate "ERASE".toList "SPEED".toList).map Prod.fst = "ERASE".toList ∧
    ∀ q ∈ evaluate "ERASE".toList "SPEED".toList,
      q.2 = HIT ∨ q.2 = PRESENT ∨ q.2 = MISS :=
  C10_evaluate_shape "ERASE".toList "SPEED".toList (by decide) (by decide)

/-- Claim C7: the cumulative letter-status update promotes each evaluated
letter to the maximum of its old and new verdict in the order
`UNUSED < MISS < PRESENT < HIT`, leaves other letters untouched, never lowers
a letter's status across successive applications (so `HIT` is permanent), and
re-applying the same evaluation a second time changes nothing. -/
theorem C7_letter_status_update_is_max :
    (∀ (m : Char → LetterStatus) (c : Char) (s : LetterStatus),
      statusStep m (c, s) c = statusMax (m c) s) ∧
    (∀ (m : Char → LetterStatus) (c : Char) (s : LetterStatus) (x : Char),
      x ≠ c → statusStep m (c, s) x = m x) ∧
    (∀ (m : Char → LetterStatus) (evals : List (Char × LetterStatus)) (x : Char),
      statusRank (m x) ≤ statusRank (updateLetterStatus m evals x)) ∧
    (∀ (m : Char → LetterStatus) (evals : List (Char × LetterStatus)) (x : Char),
      updateLetterStatus (updateLetterStatus m evals) evals x =
        updateLetterStatus m evals x) := by
  refine ⟨?_, ?_, ?_, ?_⟩
  · intro m c s
    rw [statusStep_eq]
    simp
  · intro m c s x hx
    rw [statusStep_eq]
    simp [hx]
  · intro m evals x
    exact updateLetterStatus_mono evals m x
  · intro m evals x
    refine updateLetterStatus_fixed evals (updateLetterStatus m evals) ?_ x
    intro q hq
    exact updateLetterStatus_ge_eval evals m q.1 q.2 (by simpa using hq)

/-- Witness for C7: a `PRESENT` verdict on `A` promotes an unused `A` to
`PRESENT`, leaves `B` untouched, and re-application is a no-op. -/
theorem C7_witness :
    statusStep (fun _ => UNUSED) ('A', PRESENT) 'A' = statusMax UNUSED PRESENT ∧
    statusStep (fun _ => UNUSED) ('A', PRESENT) 'B' = UNUSED ∧
    statusRank UNUSED ≤
      statusRank (updateLetterStatus (fun _ => UNUSED) [('A', PRESENT)] 'A') ∧
    updateLetterStatus (updateLetterStatus (fun _ => UNUSED) [('A', PRESENT)])
        [('A', PRESENT)] 'A' =
      updateLetterStatus (fun _ => UNUSED) [('A', PRESENT)] 'A' :=
  ⟨C7_letter_status_update_is_max.1 (fun _ => UNUSED) 'A' PRESENT,
   C7_letter_status_update_is_max.2.1 (fun _ => UNUSED) 'A' PRESENT 'B' (by decide),
   C7_letter_status_update_is_max.2.2.1 (fun _ => UNUSED) [('A', PRESENT)] 'A',
   C7_letter_status_update_is_max.2.2.2 (fun _ => UNUSED) [('A', PRESENT)] 'A'⟩

/-- Inversion of a successful `make_guess`: how the win/loss flags and the
round counter move in each branch. -/
theorem make_guess_ok {gm gm' : SoloGame} {guess : List Char} {r : GuessResult}
    (hg : make_guess gm guess = .ok (gm', r)) :
    gm.game_over = false ∧
    gm'.max_rounds = gm.max_rounds ∧
    gm'.current_round = gm.current_round + 1 ∧
    ((gm'.is_won = true ∧ gm'.game_over = true) ∨
     (gm'.is_won = gm.is_won ∧
      ((gm.current_round + 1 ≥ gm.max_rounds ∧ gm'.game_over = true) ∨
       (gm.current_round + 1 < gm.max_rounds ∧ gm'.game_over = false)))) := by
  by_cases hover : gm.game_over = true
  · simp [make_guess, hover] at hg
  · have hnotover : gm.game_over = false := by
      cases hgo : gm.game_over
      · rfl
      · exact absurd hgo hover
    refine ⟨hnotover, ?_⟩
    by_cases hval : is_valid_guess gm guess = true
    · rw [make_guess.eq_def] at hg
      rw [if_neg (by simp [hnotover])] at hg
      rw [if_neg (by simp [hval])] at hg
      simp only [Except.ok.injEq, Prod.mk.injEq] at hg
      obtain ⟨hg1, -⟩ := hg
      subst hg1
      by_cases hcorr : (pyNormalize guess == gm.target_word) = true
      · simp [hcorr]
      · by_cases hmax : gm.current_round + 1 ≥ gm.max_rounds
        · simp [hcorr, hmax]
        · simp [hcorr, hmax, hnotover]
          omega
    · rw [make_guess.eq_def] at hg
      rw [if_neg (by simp [hnotover])] at hg
      rw [if_pos (by simp [hval])] at hg
      exact absurd hg (by simp)

/-- The inductive invariant of the solo engine: rounds never exceed the
maximum, and `game_over` holds exactly when the game is won or the round
budget is exhausted. -/
theorem solo_invariant {gm : SoloGame} (h : SoloReachable gm) :
    0 < gm.max_rounds ∧ gm.current_round ≤ gm.max_rounds ∧
    (gm.game_over = true ↔ (gm.is_won = true ∨ gm.current_round = gm.max_rounds)) := by
  induction h with
  | init max_rounds word_list target h1 h2 =>
    refine ⟨h1, ?_, ?_⟩
    · simp [initialize_new_game]
    · simp [initialize_new_game]
      omega
  | step h hg ih =>
    rename_i gm gm' guess r
    obtain ⟨hpos, hle, hiff⟩ := ih
    obtain ⟨hnotover, hmax, hround, hcases⟩ := make_guess_ok hg
    have hwon : gm.is_won = false := by
      cases hw : gm.is_won
      · rfl
      · have := hiff.mpr (Or.inl hw)
        rw [hnotover] at this
        exact absurd this (by decide)
    have hne : gm.current_round ≠ gm.max_rounds := by
      intro hr
      have := hiff.mpr (Or.inr hr)
      rw [hnotover] at this
      exact absurd this (by decide)
    have hlt : gm.current_round < gm.max_rounds := Nat.lt_of_le_of_ne hle hne
    refine ⟨by rw [hmax]; exact hpos, by rw [hround, hmax]; omega, ?_⟩
    rcases hcases with ⟨hw', hgo'⟩ | ⟨hw', hrest⟩
    · rw [hgo', hw']
      simp
    · rcases hrest with ⟨hge, hgo'⟩ | ⟨hlt2, hgo'⟩
      · rw [hgo', hround, hmax]
        constructor
        · intro _
          right
          omega
        · intro _
          rfl
      · rw [hgo', hround, hmax, hw', hwon]
        constructor
        · intro hff
          exact absurd hff (by decide)
        · intro hc
          rcases hc with hc | hc
          · exact absurd hc (by decide)
          · omega

/-- Claim C6 amended: for the solo engine (`WordleGame`), in every reachable
state `game_over` holds exactly when the game is won or the round counter has
reached `max_rounds`.  (In DUAL sessions the claim fails: when one player
wins, the opponent is force-completed with `game_over=true`, `won=false`
while `current_round < max_rounds` — see the counterexample.) -/
theorem C6_amended_solo_game_over_iff {gm : SoloGame} (h : SoloReachable gm) :
    gm.game_over = true ↔ (gm.is_won = true ∨ gm.current_round = gm.max_rounds) :=
  (solo_invariant h).2.2

/-- Witness for the amended C6 at a freshly initialized solo game. -/
theorem C6_witness :
    (initialize_new_game 3 [] []).game_over = true ↔
      ((initialize_new_game 3 [] []).is_won = true ∨
       (initialize_new_game 3 [] []).current_round =
         (initialize_new_game 3 [] []).max_rounds) :=
  C6_amended_solo_game_over_iff
    (SoloReachable.init 3 [] [] (by decide) (by decide))

/-!
## Association-list lemmas (Python dict operations)
-/

/-- Key-based `find?` commutes with a key-preserving `map`. -/
theorem find?_map_values {κ α β : Type} [BEq κ] (l : List (κ × α))
    (f : κ × α → β) (k : κ) :
    (l.map (fun p => (p.1, f p))).find? (fun p => p.1 == k) =
      (l.find? (fun p => p.1 == k)).map (fun p => (p.1, f p)) := by
  induction l with
  | nil => simp
  | cons q rest ih =>
    by_cases h : (q.1 == k) = true
    · simp [List.find?_cons, h]
    · simp [List.find?_cons, h, ih]

/-- Key-based `find?` after overwriting every `k`-keyed entry with `r`. -/
theorem find?_map_ite {κ α : Type} [BEq κ] [LawfulBEq κ] [DecidableEq κ]
    (l : List (κ × α)) (k : κ) (r : α) :
    (l.map (fun p => if p.1 = k then (p.1, r) else p)).find?
        (fun p => p.1 == k) =
      if (l.find? (fun p => p.1 == k)).isSome then some (k, r) else none := by
  induction l with
  | nil => simp
  | cons q rest ih =>
    by_cases h : q.1 = k
    · subst h
      simp [List.find?_cons]
    · have hb : (q.1 == k) = false := by simpa using h
      simp [List.find?_cons, h, hb, ih]
      rw [hb]

/-- After erasing the first `k`-keyed entry of an assoc list with no
duplicate keys, no `k`-keyed entry remains. -/
theorem find?_eraseP_key {α : Type} (l : List (String × α)) (k : String)
    (hnodup : (l.map Prod.fst).Nodup) :
    (l.eraseP (fun p => p.1 == k)).find? (fun p => p.1 == k) = none := by
  induction l with
  | nil => simp
  | cons q rest ih =>
    simp only [List.map_cons, List.nodup_cons] at hnodup
    by_cases h : (q.1 == k) = true
    · simp only [List.eraseP_cons, h, cond_true]
      apply List.find?_eq_none.mpr
      intro x hx
      have hqk : q.1 = k := by simpa using h
      simp only [beq_iff_eq]
      intro hxk
      exact hnodup.1 ((hqk.trans hxk.symm) ▸ List.mem_map_of_mem Prod.fst hx)
    · simp only [List.eraseP_cons, h, cond_false]
      simp only [List.find?_cons, h]
      exact ih hnodup.2

/-!
## Claim C3: where the target word leaks
-/

/-- Claim C3 amended: the per-player state read
(`get_multiplayer_game_state`) does honour the secrecy rule — while no
winner is recorded and the requesting player's own `game_over` is false, the
returned `answer` is `none`.  (The rooms-status and opponent-summary reads do
expose the target word during play — see the counterexample.) -/
theorem C3_amended_state_read_hides_answer
    (st : ServerState) (gid u : String) (out : GameState)
    (gp : String × MPGame)
    (hread : get_multiplayer_game_state st gid u = some out)
    (hgame : st.games.find? (fun p => p.1 == gid) = some gp)
    (hwinner : gp.2.winner = none)
    (hnotdone : out.game_over = false) :
    out.answer = none := by
  simp only [get_multiplayer_game_state, hgame] at hread
  rcases hfind : gp.2.players.find? (fun p => p.1 == u) with _ | pp
  · rw [hfind] at hread
    exact absurd hread (by simp)
  · rw [hfind] at hread
    have hout := (Option.some.injEq _ _).mp hread
    have hmem : pp ∈ gp.2.players := List.mem_of_find?_eq_some hfind
    have hnotall : gameAllOver gp.2 = false := by
      rcases hall : gameAllOver gp.2 with _ | _
      · rfl
      · have := (List.all_eq_true.mp hall) pp hmem
        have hgo : pp.2.game_over = false := by
          rw [← hout] at hnotdone
          exact hnotdone
        rw [hgo] at this
        exact absurd this (by decide)
    rw [← hout]
    simp [hwinner, hnotall]

/-- Claim C3 counterexample: in `C3_state` the requesting player `alice` has
`game_over = false`, yet the rooms-status read reports the target word of the
active game and the opponent-summary read returns it outright. -/
theorem C3_counterexample :
    ((get_multiplayer_game_state C3_state "g1" "alice").map
        GameState.game_over = some false) ∧
    (((get_rooms_status C3_state).2.lookup 1).bind
        RoomStatus.target_word = some ("ABOUT".toList)) ∧
    ((get_opponent_info C3_state "g1" "alice").map
        (fun r => r.2.1) = some ("ABOUT".toList)) := by
  refine ⟨?_, ?_, ?_⟩ <;> decide

/-- Witness for the amended C3 at the concrete state `C3_state`. -/
theorem C3_witness : C3_out.answer = none :=
  C3_amended_state_read_hides_answer C3_state "g1" "alice" C3_out
    ("g1", C3_game) rfl rfl rfl rfl

/-- Claim C9 counterexample: with a completed session in room 1, a single
rooms-status poll does not report the completed session's data — it returns
an empty room with no session reference and deletes the game, so reclamation
is triggered by the poll itself, not only by a Leave or Join. -/
theorem C9_counterexample :
    ((get_rooms_status C9_state).2.lookup 1 =
      some { players := [], ready := [], game_id := none, target_word := none }) ∧
    (((get_rooms_status C9_state).1.games.find?
        (fun p => p.1 == "g1")).isSome = false) ∧
    ((C9_state.rooms.lookup 1).map Room.game_id = some (some "g1")) := by
  refine ⟨?_, ?_, ?_⟩ <;> decide

/-- Claim C9 amended: after a DUAL session completes, the next rooms-status
poll on its room itself triggers reclamation (the same lazy cleanup also runs
on Join, and on Leave when the room empties): the poll reports the room with
zero players and no session reference, and the completed game is removed from
the game table. -/
theorem C9_amended_poll_reclaims
    (st : ServerState) (rid : Nat) (gid : String) (room : Room) (g : MPGame)
    (hroom : st.rooms.find? (fun p => p.1 == rid) = some (rid, room))
    (hgid : room.game_id = some gid)
    (hgame : st.games.find? (fun p => p.1 == gid) = some (gid, g))
    (hall : gameAllOver g = true)
    (hrg : g.room_id = some rid) (hrnz : rid ≠ 0)
    (hnodup : (st.games.map Prod.fst).Nodup) :
    (rooms_status_visit st rid).2 =
      some (rid, { players := [], ready := [], game_id := none,
                   target_word := none }) ∧
    (rooms_status_visit st rid).1.games.find? (fun p => p.1 == gid) = none := by
  have hcleanst : cleanup_completed_game st gid =
      { games := st.games.eraseP (fun p => p.1 == gid),
        rooms := st.rooms.map (fun p =>
          if p.1 = rid then
            (p.1, { players := [], ready := [], game_id := none })
          else p) } := by
    simp only [cleanup_completed_game, hgame, hrg, if_neg hrnz]
  have hclean : lazy_cleanup st room = cleanup_completed_game st gid := by
    simp only [lazy_cleanup, hgid, hgame, hall, if_true]
  have hroom1 : room_after_cleanup st rid room =
      { players := [], ready := [], game_id := none } := by
    rw [room_after_cleanup.eq_def, hclean, hcleanst]
    rw [find?_map_ite st.rooms rid
      ({ players := [], ready := [], game_id := none } : Room)]
    rw [hroom]
    simp
  constructor
  · rw [rooms_status_visit.eq_def, hroom]
    simp only [hroom1]
  · rw [rooms_status_visit.eq_def, hroom]
    simp only [hclean, hcleanst]
    exact find?_eraseP_key st.games gid hnodup

/-- Witness for the amended C9 at the concrete state `C9_state`. -/
theorem C9_witness :
    (rooms_status_visit C9_state 1).2 =
      some (1, { players := [], ready := [], game_id := none,
                 target_word := none }) ∧
    (rooms_status_visit C9_state 1).1.games.find? (fun p => p.1 == "g1") = none :=
  C9_amended_poll_reclaims C9_state 1 "g1" C9_room C9_game
    rfl rfl rfl (by decide) rfl (by decide) (by decide)

/-!
## Claim C5: the hit-count tie-break
-/

/-- Claim C5: when both DUAL players are done without a solve, the resolver
totals each player's `HIT` verdicts over all their guess results; a strictly
greater total wins (winner recorded, `won` set, `RecordResult(winner,true)`
and `RecordResult(loser,false)` emitted); equal totals resolve to
`winner=DRAW` with no `won` flag set and both players reported as a played
game without a win. -/
theorem C5_hit_count_resolution
    (g : MPGame) (u1 u2 : String) (p1 p2 : PlayerData)
    (hplayers : g.players = [(u1, p1), (u2, p2)]) (hne : u1 ≠ u2) :
    (hitCount p2 < hitCount p1 →
      determine_winner_by_hits g =
        ({ g with
            winner := some u1,
            players := [(u1, { p1 with won := true }), (u2, p2)] },
         [(u1, true), (u2, false)])) ∧
    (hitCount p1 < hitCount p2 →
      determine_winner_by_hits g =
        ({ g with
            winner := some u2,
            players := [(u1, p1), (u2, { p2 with won := true })] },
         [(u2, true), (u1, false)])) ∧
    (hitCount p1 = hitCount p2 →
      determine_winner_by_hits g =
        ({ g with
            winner := some "DRAW",
            players := [(u1, { p1 with won := false }),
                        (u2, { p2 with won := false })] },
         [(u1, false), (u2, false)])) := by
  have hne21 : (u2 == u1) = false := by simp [Ne.symm hne]
  have hne12 : (u1 == u2) = false := by simp [hne]
  have hne' : ¬ u2 = u1 := Ne.symm hne
  refine ⟨?_, ?_, ?_⟩
  · intro hcmp
    have hmax : Nat.max (Nat.max 0 (hitCount p1)) (hitCount p2) = hitCount p1 := by
      have h1 : Nat.max 0 (hitCount p1) = hitCount p1 :=
        Nat.max_eq_right (Nat.zero_le _)
      rw [h1]
      exact Nat.max_eq_left (Nat.le_of_lt hcmp)
    have hb : (hitCount p2 == hitCount p1) = false := by
      simpa using Nat.ne_of_lt hcmp
    simp only [determine_winner_by_hits, hplayers, List.map_cons, List.map_nil,
      List.foldl_cons, List.foldl_nil, hmax]
    simp [List.filter, hb, hne21, hne12, hne, hne']
  · intro hcmp
    have hmax : Nat.max (Nat.max 0 (hitCount p1)) (hitCount p2) = hitCount p2 := by
      have h1 : Nat.max 0 (hitCount p1) = hitCount p1 :=
        Nat.max_eq_right (Nat.zero_le _)
      rw [h1]
      exact Nat.max_eq_right (Nat.le_of_lt hcmp)
    have hb : (hitCount p1 == hitCount p2) = false := by
      simpa using Nat.ne_of_lt hcmp
    simp only [determine_winner_by_hits, hplayers, List.map_cons, List.map_nil,
      List.foldl_cons, List.foldl_nil, hmax]
    simp [List.filter, hb, hne21, hne12, hne, hne']
  · intro hcmp
    have hmax : Nat.max (Nat.max 0 (hitCount p1)) (hitCount p2) = hitCount p1 := by
      have h1 : Nat.max 0 (hitCount p1) = hitCount p1 :=
        Nat.max_eq_right (Nat.zero_le _)
      rw [h1, hcmp]
      exact Nat.max_self _
    have hb : (hitCount p2 == hitCount p1) = true := by
      simp [hcmp]
    simp only [determine_winner_by_hits, hplayers, List.map_cons, List.map_nil,
      List.foldl_cons, List.foldl_nil, hmax]
    simp [List.filter, hb]

/-- Witness for C5: the draw case at the concrete game `C5_game`. -/
theorem C5_witness :
    determine_winner_by_hits C5_game =
      ({ C5_game with
          winner := some "DRAW",
          players := [("alice", { C5_player with won := false }),
                      ("bob", { C5_player with won := false })] },
       [("alice", false), ("bob", false)]) :=
  (C5_hit_count_resolution C5_game "alice" "bob" C5_player C5_player
    rfl (by decide)).2.2 rfl

/-- Claim C4: in a DUAL session, a submitted guess equal to the target word
immediately ends the match — the winner is recorded, the opponent is
force-completed to `game_over=true, won=false` with no condition on the
opponent's remaining attempts, and the user directory is told
`(winner,true)`, `(loser,false)`.  Both player orders are covered. -/
theorem C4_winning_guess_ends_match
    (wl : List (List Char)) (g : MPGame) (a b : String) (pa pb : PlayerData)
    (guess : List Char) (hab : a ≠ b)
    (hword : pa.selected_word ≠ [])
    (hover : pa.game_over = false)
    (hround : pa.current_round < pa.max_rounds)
    (hlen : (pyNormalize guess).length = 5)
    (halpha : (pyNormalize guess).all Char.isAlpha = true)
    (hdict : pyNormalize guess ∈ wl)
    (hwin : pyNormalize guess = pa.selected_word) :
    (g.players = [(a, pa), (b, pb)] →
      make_guess_multiplayer wl g a guess =
        .ok ({ g with
                winner := some a,
                players := [(a, winnerUpdate pa (pyNormalize guess)),
                            (b, forceLoss pb)] },
             [(a, true), (b, false)])) ∧
    (g.players = [(b, pb), (a, pa)] →
      make_guess_multiplayer wl g a guess =
        .ok ({ g with
                winner := some a,
                players := [(b, forceLoss pb),
                            (a, winnerUpdate pa (pyNormalize guess))] },
             [(a, true), (b, false)])) := by
  have haa : (a == a) = true := by simp
  have hba : (b == a) = false := by simp [Ne.symm hab]
  have hba' : ¬ b = a := Ne.symm hab
  have hnl : ¬ pa.max_rounds ≤ pa.current_round := by omega
  have hlen' : pa.selected_word.length = 5 := by
    rw [← hwin]
    exact hlen
  have hdict' : pa.selected_word ∈ wl := by
    rw [← hwin]
    exact hdict
  have halpha2 : ∀ x ∈ pa.selected_word, x.isAlpha = true := by
    rw [← hwin]
    exact fun x hx => List.all_eq_true.mp halpha x hx
  constructor <;> intro hplayers <;>
    simp [make_guess_multiplayer, hplayers, List.find?_cons, haa, hba, hba',
      hword, hover, hnl, hlen, halpha, hdict, hwin, hab, hlen', hdict',
      halpha2, winnerUpdate, forceLoss] <;>
    exact halpha2

/-- Witness for C4: `alice` guesses the target on round one of `C4_game`. -/
theorem C4_witness :
    make_guess_multiplayer WORD_LIST C4_game "alice" ("ABOUT".toList) =
      .ok ({ C4_game with
              winner := some "alice",
              players := [("alice", winnerUpdate (initPlayerData ("ABOUT".toList))
                            (pyNormalize ("ABOUT".toList))),
                          ("bob", forceLoss (initPlayerData ("ABOUT".toList)))] },
           [("alice", true), ("bob", false)]) :=
  (C4_winning_guess_ends_match WORD_LIST C4_game "alice" "bob"
      (initPlayerData ("ABOUT".toList)) (initPlayerData ("ABOUT".toList))
      ("ABOUT".toList) (by decide) (by decide) (by decide) (by decide)
      (by decide) (by decide) (by decide) (by decide)).1 rfl

/-- Claim C6 counterexample: when `charlie` wins on his first attempt,
`dana`'s progress record ends with `game_over = true` although `won = false`
and `current_round = 0 ≠ 3 = max_rounds` — so `gameOver` is not equivalent to
`won ∨ currentRound = maxRounds` for multiplayer player records. -/
theorem C6_counterexample :
    (match make_guess_multiplayer WORD_LIST C6_mp_game "charlie"
        ("ABOUT".toList) with
     | .ok (g1, _) =>
       (g1.players.find? (fun p => p.1 == "dana")).map
         (fun p => (p.2.game_over, p.2.won, p.2.current_round, p.2.max_rounds))
     | .error _ => none) = some (true, false, 0, 3) := by
  decide

/-!
## Claim C8: room capacity and auto-start on the second join
-/

/-- Claim C8: `join_room` fails with "Room is full" exactly when, after lazy
cleanup of a finished session, the room still holds at least two players
other than the joining user; and a second distinct user joining a one-player
room (with no stale session) gets `gameStarting=true` together with a newly
registered DUAL game containing both usernames and one shared target word. -/
theorem C8_join_room_capacity_and_start
    (st : ServerState) (rid : Nat) (u gid : String) (w : List Char)
    (room : Room)
    (hroom : st.rooms.find? (fun p => p.1 == rid) = some (rid, room)) :
    ((join_room st rid u gid w).2 = .err "Room is full" ↔
      2 ≤ ((room_after_cleanup st rid room).players.filter
            (fun p => !(p == u))).length) ∧
    (∀ other : String, room.players = [other] → other ≠ u →
      room.game_id = none →
      (join_room st rid u gid w).2 =
        .ok true (some { game_id := gid, room_id := rid,
                         players := [other, u], target_word := w }) ∧
      (join_room st rid u gid w).1.games =
        st.games ++ [(gid,
          { room_id := some rid,
            players := [(other, initPlayerData w), (u, initPlayerData w)],
            game_started := true, winner := none, target_word := w })]) := by
  constructor
  · rw [join_room.eq_def, hroom]
    by_cases hcap : 2 ≤ ((room_after_cleanup st rid room).players.filter
        (fun p => !(p == u))).length
    · simp [hcap]
    · simp only [hcap, if_false]
      constructor
      · intro hres
        split at hres <;> simp at hres
      · intro hres
        exact hres.elim
  · intro other hplayers hother hgid
    have hou : (other == u) = false := by simp [hother]
    have hstep1 : lazy_cleanup st room = st := by
      simp [lazy_cleanup, hgid]
    have hroom1 : room_after_cleanup st rid room = room := by
      rw [room_after_cleanup.eq_def, hstep1, hroom]
    have hcap : ¬ 2 ≤ ((room_after_cleanup st rid room).players.filter
        (fun p => !(p == u))).length := by
      rw [hroom1, hplayers]
      simp [List.filter, hou]
    rw [join_room.eq_def, hroom]
    simp only [hstep1, hroom1, hcap, if_false]
    rw [start_multiplayer_game.eq_def]
    rw [find?_map_ite]
    rw [find?_map_values, hroom]
    simp [hplayers, List.erase_cons, hou]

/-- Witness for C8: `frank` joins room 1 occupied by `erin` alone — no
room-full error, the game starts, and the registered DUAL session holds both
usernames with one shared target word. -/
theorem C8_witness :
    ((join_room C8_state 1 "frank" "g1" ("ABOUT".toList)).2 =
        .err "Room is full" ↔
      2 ≤ ((room_after_cleanup C8_state 1 C8_room).players.filter
            (fun p => !(p == "frank"))).length) ∧
    ((join_room C8_state 1 "frank" "g1" ("ABOUT".toList)).2 =
        .ok true (some { game_id := "g1", room_id := 1,
                         players := ["erin", "frank"],
                         target_word := "ABOUT".toList }) ∧
      (join_room C8_state 1 "frank" "g1" ("ABOUT".toList)).1.games =
        C8_state.games ++ [("g1",
          { room_id := some 1,
            players := [("erin", initPlayerData ("ABOUT".toList)),
                        ("frank", initPlayerData ("ABOUT".toList))],
            game_started := true, winner := none,
            target_word := "ABOUT".toList })]) := by
  have h := C8_join_room_capacity_and_start C8_state 1 "frank" "g1"
    ("ABOUT".toList) C8_room rfl
  exact ⟨h.1, h.2 "erin" rfl (by decide) rfl⟩

end Wordle
